import Mathlib

/-! canary-checker: check-result aggregation and time-series query engine

A shallow embedding of

* `pkg/cache/postgres_query.go` (`parseDuration`, `GetWhereClause`,
  `ExecuteDetails`, `ExecuteSummary`),
* `pkg/metrics/metrics.go` (`RemoveCheckByKey`, `GetMetrics`, `Record`),
* `pkg/api/utils.go` (`errorResonse`),

followed by the theorems about them.

Conventions of the embedding:

* Go strings are Lean `String`s; Go `error` results are `Except String`.
* Third-party parsers (`duration.ParseDuration`, `time.Parse(time.RFC3339, _)`)
  are parameters of the definitions that call them.
* The `float64` values handed to the registry (metric values, observed
  durations, the constants 0 and 1) are carried as the rational number they
  denote; `float64(d)` of an integer `d` is the cast of `d`, exact for
  `|d| < 2^53`.  Sample values of the rolling series and decoded store cells
  are integers.
-/

set_option autoImplicit false
set_option maxRecDepth 100000

namespace CanaryChecker

/-! ## Strings -/

/-- Go `unicode.IsSpace`: the code points with the White_Space property. -/
def isSpace (c : Char) : Bool :=
  let n := c.toNat
  (9 ≤ n && n ≤ 13) || n == 32 || n == 133 || n == 160 || n == 5760 ||
  (8192 ≤ n && n ≤ 8202) || n == 8232 || n == 8233 || n == 8239 || n == 8287 ||
  n == 12288

/-- Go `strings.TrimSpace`: drop leading and trailing white space. -/
def TrimSpace (s : String) : String :=
  String.mk ((s.data.dropWhile isSpace).reverse.dropWhile isSpace).reverse

/-- Substring search on character lists. -/
def containsChars : List Char → List Char → Bool
  | [], sub => sub.isEmpty
  | c :: cs, sub => sub.isPrefixOf (c :: cs) || containsChars cs sub

/-- Go `strings.Contains`. -/
def Contains (s sub : String) : Bool :=
  containsChars s.data sub.data

/-! ## Query arguments -/

/-- The dynamically typed values (`interface{}`) bound to named parameters.
`Dur` is the type of `dur.Minutes()` results, `Time` the type of parsed
timestamps. -/
inductive Arg (Dur Time : Type) where
  | null : Arg Dur Time
  | str (s : String) : Arg Dur Time
  | int (n : Int) : Arg Dur Time
  | minutes (d : Dur) : Arg Dur Time
  | timestamp (t : Time) : Arg Dur Time
  deriving DecidableEq, Repr

/-- A Go `map[string]interface{}`: at most one entry per key. -/
abbrev NamedArgs (Dur Time : Type) := List (String × Arg Dur Time)

/-- Map assignment `m[k] = v`. -/
def NamedArgs.set {Dur Time : Type} (m : NamedArgs Dur Time) (k : String)
    (v : Arg Dur Time) : NamedArgs Dur Time :=
  m.filter (fun e => e.1 != k) ++ [(k, v)]

/-- Map lookup `m[k]`. -/
def NamedArgs.get? {Dur Time : Type} (m : NamedArgs Dur Time) (k : String) :
    Option (Arg Dur Time) :=
  (m.find? (fun e => e.1 == k)).map Prod.snd

/-- The keys bound in the map. -/
def NamedArgs.keys {Dur Time : Type} (m : NamedArgs Dur Time) : List String :=
  m.map Prod.fst

/-- The third-party parsers `parseDuration` calls:
`duration.ParseDuration(d)` followed by `.Minutes()`, and
`time.Parse(time.RFC3339, d)`; `none` stands for a non-nil error. -/
structure TimeParsers (Dur Time : Type) where
  ParseDuration : String → Option Dur
  ParseRFC3339 : String → Option Time

/-- Go `QueryParams` as used by the query layer. -/
structure QueryParams where
  Check : String := ""
  Start : String := ""
  End : String := ""
  StatusCount : Int := 0
  IncludeMessages : Bool := false
  Trace : Bool := false
  deriving DecidableEq, Repr

section Query

variable {Dur Time : Type}

/-- Go `parseDuration(d, name)`. -/
def parseDuration (P : TimeParsers Dur Time) (d : String) (name : String) :
    Except String (String × Arg Dur Time) :=
  if d = "" then
    .ok ("", .null)
  else
    match P.ParseDuration d with
    | some dur =>
      .ok ("(NOW() at TIME ZONE 'utc' - Interval '1 minute' * :" ++ name ++ ")", .minutes dur)
    | none =>
      match P.ParseRFC3339 d with
      | some timestamp => .ok (":" ++ name, .timestamp timestamp)
      | none => .error "start time must be a duration or RFC3339 timestamp"

/-- Go `QueryParams.GetWhereClause`. -/
def GetWhereClause (P : TimeParsers Dur Time) (q : QueryParams) :
    Except String (String × NamedArgs Dur Time) := do
  let clause := ""
  let args : NamedArgs Dur Time := []
  let and := " AND "
  let (clause, args) :=
    if q.Check ≠ "" then ("check_key = :check_key", args.set "check_key" (.str q.Check))
    else (clause, args)
  let (clause, args) ←
    if q.Start ≠ "" ∧ q.End = "" then do
      let clause := if clause ≠ "" then clause ++ and else clause
      let (start, arg) ← parseDuration P q.Start "start"
      let args := args.set "start" arg
      pure (clause ++ "time > " ++ start, args)
    else if q.Start = "" ∧ q.End ≠ "" then do
      let clause := if clause ≠ "" then clause ++ and else clause
      let (end_, arg) ← parseDuration P q.End "end"
      let args := args.set "end" arg
      pure (clause ++ "time < " ++ end_, args)
    else
      pure (clause, args)
  let (clause, args) ←
    if q.Start ≠ "" ∧ q.End ≠ "" then do
      let clause := if clause ≠ "" then clause ++ and else clause
      let (start, arg) ← parseDuration P q.Start "start"
      let args := args.set "start" arg
      let (end_, arg) ← parseDuration P q.End "end"
      let args := args.set "end" arg
      pure (clause ++ "time BETWEEN " ++ start ++ and ++ end_, args)
    else
      pure (clause, args)
  pure (TrimSpace clause, args)

end Query

/-! ## Rows returned by the store -/

/-- The dynamically typed cells (`interface{}`) of a result row.  A
`time.Time` cell is represented by its `Format(time.RFC3339)` rendering. -/
inductive Val where
  | null : Val
  | str (s : String) : Val
  | int (n : Int) : Val
  | bool (b : Bool) : Val
  | time (rfc3339 : String) : Val
  | list (vs : List Val) : Val
  | obj (fields : List (String × Val)) : Val
  deriving Repr

/-- The outcome of a call that can return a Go `error` or panic at run time
(index out of range, failed type assertion). -/
inductive Fault where
  | err (msg : String) : Fault
  | panic : Fault
  deriving DecidableEq, Repr

/-- Type assertion `v.(string)`. -/
def Val.asString : Val → Except Fault String
  | .str s => .ok s
  | _ => .error .panic

/-- Type assertion `v.(bool)`. -/
def Val.asBool : Val → Except Fault Bool
  | .bool b => .ok b
  | _ => .error .panic

/-- The rendering `v.(time.Time).Format(time.RFC3339)`. -/
def Val.asTimeRFC3339 : Val → Except Fault String
  | .time t => .ok t
  | _ => .error .panic

/-- Type assertion `v.([]interface{})`. -/
def Val.asList : Val → Except Fault (List Val)
  | .list vs => .ok vs
  | _ => .error .panic

/-- Type assertion `v.(map[string]interface{})`. -/
def Val.asObj : Val → Except Fault (List (String × Val))
  | .obj fs => .ok fs
  | _ => .error .panic

/-- The test `v != nil`. -/
def Val.isNull : Val → Bool
  | .null => true
  | _ => false

/-- Map index `s[k]` on a decoded JSON object: the zero value `nil` when the
key is absent. -/
def objGet (fs : List (String × Val)) (k : String) : Val :=
  match fs.find? (fun e => e.1 == k) with
  | some e => e.2
  | none => .null

/-- Slice index `vals[i]`: panics when out of range. -/
def idx (vals : List Val) (i : Nat) : Except Fault Val :=
  match vals[i]? with
  | some v => .ok v
  | none => .error .panic

/-- The conversion helpers of package `cache` (`intV`, `float64V`, `stringV`,
`mapStringString`) that the decoders call; their source is not part of the
files embedded here, so they are parameters. -/
structure Converters where
  intV : Val → Int
  float64V : Val → Int
  stringV : Val → String
  mapStringString : Val → List (String × String)

/-- Go `pkg.Timeseries`. -/
structure Timeseries where
  Key : String := ""
  Time : String := ""
  Status : Bool := false
  Message : String := ""
  Duration : Int := 0
  Error : String := ""
  deriving DecidableEq, Repr

/-- Go `pkg.Uptime` (the counts used here). -/
structure Uptime where
  Passed : Int := 0
  Failed : Int := 0
  deriving DecidableEq, Repr

/-- Go `pkg.Latency`. -/
structure Latency where
  Percentile99 : Int := 0
  Percentile97 : Int := 0
  Percentile95 : Int := 0
  Rolling1H : Int := 0
  deriving DecidableEq, Repr

/-- Go `pkg.CheckStatus`. -/
structure CheckStatus where
  Status : Bool := false
  Time : String := ""
  Duration : Int := 0
  Message : String := ""
  Error : String := ""
  deriving DecidableEq, Repr

/-- Go `pkg.Check`, the per-check summary. -/
structure Check where
  Key : String := ""
  Uptime : Uptime := {}
  Latency : Latency := {}
  CanaryName : String := ""
  Type_ : String := ""
  Description : String := ""
  DisplayType : String := ""
  Endpoint : String := ""
  Icon : String := ""
  ID : String := ""
  Interval : Nat := 0
  Labels : List (String × String) := []
  Name : String := ""
  Namespace : String := ""
  Owner : String := ""
  RunnerLabels : List (String × String) := []
  RunnerName : String := ""
  Schedule : String := ""
  Severity : String := ""
  Statuses : List CheckStatus := []
  deriving DecidableEq, Repr

/-! ## Detail queries -/

/-- Segment 0 of the format string of `ExecuteDetails` (the text between the `%s` verbs). -/
def detailsPart0 : String :=
  "\n" ++
  "\tFROM check_statuses\n" ++
  "\tWHERE "

/-- Segment 1 of the format string of `ExecuteDetails` (the text between the `%s` verbs). -/
def detailsPart1 : String :=
  "\n" ++
  "\tLIMIT :limit\n"

/-- The select list `ExecuteDetails` builds (the value of `sql` before the
`FROM` part is appended). -/
def detailsSelect (q : QueryParams) : String :=
  let sql := "SELECT time,duration,status "
  let sql := if q.Check = "" then sql ++ ", check_key" else sql
  let sql := if q.IncludeMessages then sql ++ ", message, error" else sql
  sql

/-- The statement `ExecuteDetails` hands to `exec`. -/
def detailsSQL (q : QueryParams) (clause : String) : String :=
  detailsSelect q ++ (detailsPart0 ++ clause ++ detailsPart1)

/-- The value of `keyIndex` in `ExecuteDetails`. -/
def keyIndex (_q : QueryParams) : Nat := 3

/-- The value of `messageIndex` in `ExecuteDetails` when the rows are decoded. -/
def messageIndex (q : QueryParams) : Nat :=
  let messageIndex := 4
  if q.IncludeMessages then
    if q.Check ≠ "" then messageIndex - 1 else messageIndex
  else messageIndex

/-- The value of `errorIndex` in `ExecuteDetails` when the rows are decoded. -/
def errorIndex (q : QueryParams) : Nat :=
  let errorIndex := 5
  if q.IncludeMessages then
    if q.Check ≠ "" then errorIndex - 1 else errorIndex
  else errorIndex

/-- The body of the row loop of `ExecuteDetails`: one row to one
`pkg.Timeseries`. -/
def decodeDetailsRow (C : Converters) (q : QueryParams) (vals : List Val) :
    Except Fault Timeseries := do
  let time ← (← idx vals 0).asTimeRFC3339
  let duration := C.intV (← idx vals 1)
  let status ← (← idx vals 2).asBool
  let result : Timeseries := { Time := time, Duration := duration, Status := status }
  let result ←
    if q.Check = "" then do
      let key ← (← idx vals (keyIndex q)).asString
      pure { result with Key := key }
    else pure result
  let result ←
    if q.IncludeMessages then do
      let message ← (← idx vals (messageIndex q)).asString
      let error ← (← idx vals (errorIndex q)).asString
      pure { result with Message := message, Error := error }
    else pure result
  pure result

/-- The row loop shared by the two readers: `rows.Values()` may fail for a
row, and the first failure aborts the query. -/
def decodeRows {α : Type} (decode : List Val → Except Fault α) :
    List (Except String (List Val)) → Except Fault (List α)
  | [] => .ok []
  | .error e :: _ => .error (.err e)
  | .ok vals :: rest => do
    let r ← decode vals
    let rs ← decodeRows decode rest
    pure (r :: rs)

section Readers

variable {Dur Time : Type}

/-- The store as `exec` sees it: statement and named arguments in, rows or an
error out (`convertNamedParams` and the driver call are on the far side). -/
abbrev Querier (Dur Time : Type) :=
  String → NamedArgs Dur Time → Except String (List (Except String (List Val)))

/-- Go `QueryParams.ExecuteDetails`. -/
def ExecuteDetails (P : TimeParsers Dur Time) (C : Converters) (db : Querier Dur Time)
    (q : QueryParams) : Except Fault (List Timeseries) := do
  let (clause, namedArgs) ← (GetWhereClause P q).mapError Fault.err
  let namedArgs := namedArgs.set "limit" (.int q.StatusCount)
  let sql := detailsSQL q clause
  let rows ← (db sql namedArgs).mapError Fault.err
  decodeRows (decodeDetailsRow C q) rows

end Readers

/-! ## Summary queries -/

/-- Segment 0 of the format string of `ExecuteSummary` (the text between the `%s` verbs). -/
def summaryPart0 : String :=
  "\n" ++
  "SELECT checks.key,\n" ++
  "  passed.passed,\n" ++
  "  failed.failed,\n" ++
  "  stats.p99, stats.p97, stats.p95,\n" ++
  "\tstatii,\n" ++
  "\tcanary_name as canaryName,\n" ++
  "\tcheck_type as type,\n" ++
  "\tdescription,\n" ++
  "\tdisplay_type as displayType,\n" ++
  "\tendpoint,\n" ++
  "\ticon,\n" ++
  "\tid,\n" ++
  "\tinterval,\n" ++
  "\tlabels,\n" ++
  "\tname,\n" ++
  "\tnamespace,\n" ++
  "\towner,\n" ++
  "\trunner_labels as runnerLabels,\n" ++
  "\trunner_name as runnerName,\n" ++
  "\tschedule,\n" ++
  "\tseverity\n" ++
  "\tFROM checks checks\n" ++
  "  FULL JOIN (\n" ++
  "  \tSELECT check_key,\n" ++
  "\t\t\tpercentile_disc(0.99) within group (order by check_statuses.duration) as p99,\n" ++
  "\t\t\tpercentile_disc(0.97) within group (order by check_statuses.duration) as p97,\n" ++
  "\t\t\tpercentile_disc(0.05) within group (order by check_statuses.duration) as p95\n" ++
  "\t\t\tFROM check_statuses WHERE "

/-- Segment 1 of the format string of `ExecuteSummary` (the text between the `%s` verbs). -/
def summaryPart1 : String :=
  "  GROUP BY check_key\n" ++
  "  ) as stats ON stats.check_key = checks.key\n" ++
  "  FULL JOIN (\n" ++
  "    SELECT check_key,\n" ++
  "      count(*) as failed\n" ++
  "\t\tFROM check_statuses\n" ++
  "    WHERE status = false  AND "

/-- Segment 2 of the format string of `ExecuteSummary` (the text between the `%s` verbs). -/
def summaryPart2 : String :=
  "\n" ++
  "    GROUP BY check_key\n" ++
  "  ) as failed ON failed.check_key = checks.key\n" ++
  "  FULL JOIN (\n" ++
  "    SELECT check_key,\n" ++
  "      count(*) as passed\n" ++
  "\t\tFROM check_statuses\n" ++
  "    WHERE  status = true AND "

/-- Segment 3 of the format string of `ExecuteSummary` (the text between the `%s` verbs). -/
def summaryPart3 : String :=
  "\n" ++
  "    GROUP BY check_key\n" ++
  "  ) as passed ON passed.check_key = checks.key\n" ++
  "\t\tFULL JOIN (\n" ++
  "\t\t\tSELECT check_key, json_agg(json_build_object('status',status,'duration',duration,'time',time "

/-- Segment 4 of the format string of `ExecuteSummary` (the text between the `%s` verbs). -/
def summaryPart4 : String :=
  ")) as statii\n" ++
  "\tFROM (\n" ++
  "\t\t\tSELECT check_key,\n" ++
  "\t\t\t\tstatus,\n" ++
  "\t\t\t\ttime,\n" ++
  "\t\t\t\tduration,\n" ++
  "\t\t\t\tmessage,\n" ++
  "\t\t\t\terror,\n" ++
  "\t\t\t\trank() OVER (\n" ++
  "\t\t\t\t\tPARTITION BY check_key\n" ++
  "\t\t\t\t\tORDER BY time DESC\n" ++
  "\t\t\t\t)\n" ++
  "\t\t\tFROM check_statuses\n" ++
  "\t\t\tWHERE  "

/-- Segment 5 of the format string of `ExecuteSummary` (the text between the `%s` verbs). -/
def summaryPart5 : String :=
  "\n" ++
  "\t\t) check_statuses\n" ++
  "\tWHERE rank <= :count\n" ++
  "\tGROUP by check_key\n" ++
  "\t\t) as statuses ON statuses.check_key = checks.key\n" ++
  "\t\tWHERE passed.passed > 0 OR failed.failed > 0\n" ++
  "\t"

/-- The value of `statusColumns` in `ExecuteSummary`. -/
def statusColumns (q : QueryParams) : String :=
  if q.IncludeMessages then "" ++ ", 'message', message, 'error', error" else ""

/-- The statement `ExecuteSummary` hands to `exec`:
`fmt.Sprintf(format, clause, clause, clause, statusColumns, clause)`. -/
def summarySQL (q : QueryParams) (clause : String) : String :=
  summaryPart0 ++ clause ++ summaryPart1 ++ clause ++ summaryPart2 ++ clause ++
    summaryPart3 ++ statusColumns q ++ summaryPart4 ++ clause ++ summaryPart5

/-- One element of the `statii` aggregate to one `pkg.CheckStatus`. -/
def decodeStatus (C : Converters) (status : Val) : Except Fault CheckStatus := do
  let s ← status.asObj
  let st ← (objGet s "status").asBool
  let time ← (objGet s "time").asString
  pure { Status := st, Time := time, Duration := C.intV (objGet s "duration"),
         Message := C.stringV (objGet s "message"), Error := C.stringV (objGet s "error") }

/-- The loop over the `statii` aggregate. -/
def decodeStatuses (C : Converters) : List Val → Except Fault (List CheckStatus)
  | [] => .ok []
  | v :: vs => do
    let s ← decodeStatus C v
    let ss ← decodeStatuses C vs
    pure (s :: ss)

/-- The body of the row loop of `ExecuteSummary`: one row to one `pkg.Check`. -/
def decodeSummaryRow (C : Converters) (vals : List Val) : Except Fault Check := do
  let key ← (← idx vals 0).asString
  let passed := C.intV (← idx vals 1)
  let failed := C.intV (← idx vals 2)
  let p99 := C.float64V (← idx vals 3)
  let p97 := C.float64V (← idx vals 4)
  let p95 := C.float64V (← idx vals 5)
  let canaryName ← (← idx vals 7).asString
  let type ← (← idx vals 8).asString
  let description ← (← idx vals 9).asString
  let displayType ← (← idx vals 10).asString
  let endpoint ← (← idx vals 11).asString
  let icon ← (← idx vals 12).asString
  let id ← (← idx vals 13).asString
  let interval := (C.intV (← idx vals 14) % 2 ^ 64).toNat
  let labels := C.mapStringString (← idx vals 15)
  let name ← (← idx vals 16).asString
  let namespace_ ← (← idx vals 17).asString
  let owner ← (← idx vals 18).asString
  let runnerLabels := C.mapStringString (← idx vals 19)
  let runnerName ← (← idx vals 20).asString
  let schedule ← (← idx vals 21).asString
  let severity ← (← idx vals 22).asString
  let v6 ← idx vals 6
  let statuses ← if v6.isNull then pure [] else do
    decodeStatuses C (← v6.asList)
  pure {
    Key := key
    Uptime := { Passed := passed, Failed := failed }
    Latency := { Percentile99 := p99, Percentile97 := p97, Percentile95 := p95 }
    CanaryName := canaryName, Type_ := type, Description := description
    DisplayType := displayType, Endpoint := endpoint, Icon := icon, ID := id
    Interval := interval, Labels := labels, Name := name, Namespace := namespace_
    Owner := owner, RunnerLabels := runnerLabels, RunnerName := runnerName
    Schedule := schedule, Severity := severity, Statuses := statuses }

section Summary

variable {Dur Time : Type}

/-- Go `QueryParams.ExecuteSummary`. -/
def ExecuteSummary (P : TimeParsers Dur Time) (C : Converters) (db : Querier Dur Time)
    (q : QueryParams) : Except Fault (List Check) := do
  let (clause, namedArgs) ← (GetWhereClause P q).mapError Fault.err
  let sql := summarySQL q clause
  let q := if q.StatusCount = 0 then { q with StatusCount := 5 } else q
  let namedArgs := namedArgs.set "count" (.int q.StatusCount)
  let rows ← (db sql namedArgs).mapError Fault.err
  decodeRows (decodeSummaryRow C) rows

end Summary

/-! ## Rolling series -/

/-- Modelled from the spec: the third-party `rolling.TimePolicy` series
(spec section 3, RollingSeries: a bounded time-windowed sample holder whose
samples older than the configured window, at one-second bucket granularity,
are excluded from any reduction).  A series records its samples with the
second at which they were appended; `window` is the number of one-second
buckets. -/
structure TimePolicy where
  window : Nat
  samples : List (Nat × Int)
  deriving DecidableEq, Repr

/-- Modelled from the spec: `rolling.NewTimePolicy(rolling.NewWindow(n), time.Second)`,
a fresh series of `n` one-second buckets. -/
def NewTimePolicy (n : Nat) : TimePolicy :=
  { window := n, samples := [] }

/-- Modelled from the spec: `TimePolicy.Append(value)` called at second `now`. -/
def TimePolicy.Append (tp : TimePolicy) (now : Nat) (value : Int) : TimePolicy :=
  { tp with samples := tp.samples ++ [(now, value)] }

/-- Modelled from the spec: the samples inside the trailing window at second
`now`, those appended fewer than `window` seconds ago. -/
def TimePolicy.live (tp : TimePolicy) (now : Nat) : List Int :=
  (tp.samples.filter (fun s => decide (now - s.1 < tp.window))).map Prod.snd

/-- Modelled from the spec: `TimePolicy.Reduce(f)` called at second `now`. -/
def TimePolicy.Reduce (tp : TimePolicy) (now : Nat) (f : List Int → Int) : Int :=
  f (tp.live now)

/-- Modelled from the spec: the reducer `rolling.Sum`. -/
def Sum (w : List Int) : Int := w.sum

/-! ## The aggregator state and the registry -/

/-- A `cmap.ConcurrentMap` from check key to series. -/
abbrev SeriesMap := String → Option TimePolicy

/-- Go `cmap.New()`. -/
def SeriesMap.New : SeriesMap := fun _ => none

/-- Go `m.Get(key)`. -/
def SeriesMap.Get (m : SeriesMap) (key : String) : Option TimePolicy := m key

/-- Go `m.Set(key, v)`. -/
def SeriesMap.Set (m : SeriesMap) (key : String) (v : TimePolicy) : SeriesMap :=
  fun k => if k = key then some v else m k

/-- Go `m.Remove(key)`. -/
def SeriesMap.Remove (m : SeriesMap) (key : String) : SeriesMap :=
  fun k => if k = key then none else m k

/-- The package-level maps `failed`, `passed` and `latencies`. -/
structure Aggregator where
  failed : SeriesMap
  passed : SeriesMap
  latencies : SeriesMap

/-- The collectors registered with Prometheus in `init`. -/
inductive Collector where
  | OpsCount | OpsSuccessCount | OpsFailedCount | RequestLatency | Gauge
  | GenericGauge | GenericCounter | GenericHistogram
  deriving DecidableEq, Repr

/-- The four operations the code calls on a labelled collector. -/
inductive Op where
  | Inc : Op
  | Add (v : ℚ) : Op
  | Set (v : ℚ) : Op
  | Observe (v : ℚ) : Op
  deriving DecidableEq, Repr

/-- One call `collector.WithLabelValues(labels...).op`. -/
structure Emission where
  collector : Collector
  labels : List String
  op : Op
  deriving DecidableEq, Repr

/-- Go `pkg.Metric`: an ad-hoc metric attached to a result. -/
structure Metric where
  Name : String
  Type_ : String
  Value : ℚ
  deriving DecidableEq, Repr

/-- Go conversion `int(x)` of a finite `float64`: the fraction is discarded
(truncation toward zero); a value outside the `int64` range has no defined
result in Go, and gives the smallest `int64` on amd64. -/
def float64ToInt (x : ℚ) : Int :=
  let t := x.num.tdiv x.den
  if -(2 ^ 63 : Int) ≤ t ∧ t < 2 ^ 63 then t else -(2 ^ 63 : Int)

/-- Go `strconv.Itoa`. -/
def Itoa (n : Int) : String := toString n

/-- Go `metrics.CounterType`. -/
def CounterType : String := "counter"

/-- Go `metrics.GaugeType`. -/
def GaugeType : String := "gauge"

/-- Go `metrics.HistogramType`. -/
def HistogramType : String := "histogram"

/-- Go `v1.CanarySpec` (the fields `Record` reads). -/
structure CanarySpec where
  Owner : String := ""
  Severity : String := ""
  deriving DecidableEq, Repr

/-- Go `v1.Canary` (the fields `Record` reads). -/
structure Canary where
  Namespace : String := ""
  Name : String := ""
  Spec : CanarySpec := {}
  deriving DecidableEq, Repr

/-- Go `pkg.CheckResult` (the fields `Record` reads); `Chk` is the type of check
definitions (`external.Check`), `Check = none` a nil reference. -/
structure CheckResult (Chk : Type) where
  Check : Option Chk
  Pass : Bool
  Duration : Int
  Metrics : List Metric

/-- The methods of the check definition and of the canary that `Record`
calls (`result.Check.GetType()`, `check.GetDescription(result.Check)`,
`check.GetKey(result.Check)`); they live in package `v1`. -/
structure CanaryAPI (Chk : Type) where
  GetType : Chk → String
  GetDescription : Canary → Chk → String
  GetKey : Canary → Chk → String

/-- Go `metrics.RemoveCheckByKey`. -/
def RemoveCheckByKey (s : Aggregator) (key : String) : Aggregator :=
  { failed := s.failed.Remove key
    passed := s.passed.Remove key
    latencies := s.latencies.Remove key }

/-- Go `metrics.GetMetrics` at second `now`; `percentile95` is the reducer
`rolling.Percentile(95)`. -/
def GetMetrics (percentile95 : List Int → Int) (now : Nat) (s : Aggregator) (key : String) :
    Uptime × Latency :=
  let uptime : Uptime := {}
  let latency : Latency := {}
  let uptime :=
    match s.failed.Get key with
    | some fail => { uptime with Failed := fail.Reduce now Sum }
    | none => uptime
  let uptime :=
    match s.passed.Get key with
    | some pass => { uptime with Passed := pass.Reduce now Sum }
    | none => uptime
  let latency :=
    match s.latencies.Get key with
    | some lat => { Rolling1H := lat.Reduce now percentile95 }
    | none => latency
  (uptime, latency)

/-- The ad-hoc metric loop of `Record`: one metric to the registry calls it
causes. -/
def emitMetric (checkType endpoint namespace_ owner severity key : String) (m : Metric) :
    List Emission :=
  if m.Type_ = CounterType then
    [⟨.GenericCounter,
      [checkType, endpoint, m.Name, Itoa (float64ToInt m.Value), namespace_, owner, severity, key],
      .Inc⟩]
  else if m.Type_ = GaugeType then
    [⟨.GenericGauge, [checkType, endpoint, m.Name, namespace_, owner, severity, key],
      .Set m.Value⟩]
  else if m.Type_ = HistogramType then
    [⟨.GenericHistogram, [checkType, endpoint, m.Name, namespace_, owner, severity, key],
      .Observe m.Value⟩]
  else []

/-- What one call of `Record` leaves behind: the maps, the registry calls in
the order they were made, and the returned snapshots. -/
structure RecordOut where
  state : Aggregator
  emitted : List Emission
  uptime : Uptime
  latency : Latency

section Recorder

variable {Chk : Type}

/-- Go `metrics.Record` at second `now`.  The calls to the logger
(`logger.Warnf`, `logger.Tracef`) change neither the maps nor the registry and
are left out; the series are get-or-created and written back under the key.
The key is `check.GetKey(result.Check)`, one per check of the canary (the
source comment above that line speaks of aggregation at the canary level). -/
def Record (A : CanaryAPI Chk) (percentile95 : List Int → Int) (now : Nat) (s : Aggregator)
    (check : Canary) (result : Option (CheckResult Chk)) : RecordOut :=
  match result with
  | none => { state := s, emitted := [], uptime := {}, latency := {} }
  | some result =>
    match result.Check with
    | none => { state := s, emitted := [], uptime := {}, latency := {} }
    | some resultCheck =>
      let namespace_ := check.Namespace
      let name := check.Name
      let checkType := A.GetType resultCheck
      let endpoint := A.GetDescription check resultCheck
      let owner := check.Spec.Owner
      let severity := check.Spec.Severity
      let key := A.GetKey check resultCheck
      let labels := [checkType, endpoint, name, namespace_, owner, severity, key]
      let fail :=
        match s.failed.Get key with
        | none => NewTimePolicy 3600
        | some f => f
      let pass :=
        match s.passed.Get key with
        | none => NewTimePolicy 3600
        | some p => p
      let latency :=
        match s.latencies.Get key with
        | none => NewTimePolicy 3600
        | some l => l
      let emitted : List Emission := [⟨.OpsCount, labels, .Inc⟩]
      let (emitted, latency) :=
        if result.Duration > 0 then
          (emitted ++ [⟨.RequestLatency, labels, .Observe (result.Duration : ℚ)⟩],
            latency.Append now result.Duration)
        else (emitted, latency)
      let (emitted, pass, fail) :=
        if result.Pass then
          let pass := pass.Append now 1
          let emitted := emitted ++
            [⟨.Gauge, labels, .Set 0⟩, ⟨.OpsSuccessCount, labels, .Inc⟩,
             ⟨.OpsFailedCount, labels, .Add 0⟩]
          let emitted := emitted ++
            result.Metrics.flatMap (emitMetric checkType endpoint namespace_ owner severity key)
          (emitted, pass, fail)
        else
          let fail := fail.Append now 1
          let emitted := emitted ++
            [⟨.Gauge, labels, .Set 1⟩, ⟨.OpsFailedCount, labels, .Inc⟩]
          (emitted, pass, fail)
      { state :=
          { failed := s.failed.Set key fail
            passed := s.passed.Set key pass
            latencies := s.latencies.Set key latency }
        emitted := emitted
        uptime := { Passed := pass.Reduce now Sum, Failed := fail.Reduce now Sum }
        latency := { Rolling1H := latency.Reduce now percentile95 } }

/-- A sequence of `Record` calls, each at its own second. -/
def recordAll (A : CanaryAPI Chk) (percentile95 : List Int → Int) (s : Aggregator) :
    List (Nat × Canary × CheckResult Chk) → Aggregator
  | [] => s
  | (now, check, result) :: rest =>
    recordAll A percentile95 (Record A percentile95 now s check (some result)).state rest

end Recorder

/-! ## The error response of the API -/

/-- The calls `errorResonse` can make on an `http.ResponseWriter`. -/
inductive WriterCall where
  | Write (body : String) : WriterCall
  | WriteHeader (code : Int) : WriterCall
  deriving DecidableEq, Repr

/-- Go `errorResonse(w, err, code)`: the calls made on `w`, in order.
`marshal` is `json.Marshal` on the one-entry map with key `error`, `errText`
is `err.Error()`. -/
def errorResonse (marshal : String → String) (errText : String) (code : Int) :
    List WriterCall :=
  let e := marshal errText
  [.Write e, .WriteHeader code]

/-- What an `http.ResponseWriter` has sent: the status line (once written)
and the body. -/
structure Response where
  status : Option Int := none
  body : String := ""
  deriving DecidableEq, Repr

/-- The documented contract of `http.ResponseWriter`: `Write` before any
`WriteHeader` sends status 200 first; a `WriteHeader` after the header is
written is superfluous and changes nothing. -/
def Response.apply (r : Response) : WriterCall → Response
  | .Write body =>
    { status := some (r.status.getD 200), body := r.body ++ body }
  | .WriteHeader code =>
    match r.status with
    | some _ => r
    | none => { r with status := some code }

/-- The response after a sequence of calls on a fresh writer. -/
def respond (calls : List WriterCall) : Response :=
  calls.foldl Response.apply {}

/-! ## Specification-side definitions for the WHERE clause -/

section WhereSpec

variable {Dur Time : Type}

/-- The expression `parseDuration` returns for a bound (empty on error). -/
def parsedExpr (P : TimeParsers Dur Time) (d name : String) : String :=
  match parseDuration P d name with
  | .ok (e, _) => e
  | .error _ => ""

/-- The value `parseDuration` binds for a bound (nil on error). -/
def parsedArg (P : TimeParsers Dur Time) (d name : String) : Arg Dur Time :=
  match parseDuration P d name with
  | .ok (_, a) => a
  | .error _ => .null

/-- The conditions the specification lists for `BuildWhereClause`, in order:
the check-key equality when `Check` is set, then the one time condition. -/
def expectedConditions (P : TimeParsers Dur Time) (q : QueryParams) : List String :=
  (if q.Check ≠ "" then ["check_key = :check_key"] else []) ++
  (if q.Start ≠ "" ∧ q.End = "" then ["time > " ++ parsedExpr P q.Start "start"]
   else if q.Start = "" ∧ q.End ≠ "" then ["time < " ++ parsedExpr P q.End "end"]
   else if q.Start ≠ "" ∧ q.End ≠ "" then
     ["time BETWEEN " ++ parsedExpr P q.Start "start" ++ " AND " ++ parsedExpr P q.End "end"]
   else [])

/-- The bindings the specification expects: one per non-empty field. -/
def expectedArgs (P : TimeParsers Dur Time) (q : QueryParams) : NamedArgs Dur Time :=
  (if q.Check ≠ "" then [("check_key", Arg.str q.Check)] else []) ++
  (if q.Start ≠ "" then [("start", parsedArg P q.Start "start")] else []) ++
  (if q.End ≠ "" then [("end", parsedArg P q.End "end")] else [])

/-- A bound parses: as a duration or as an RFC3339 timestamp. -/
def Parses (P : TimeParsers Dur Time) (d : String) : Prop :=
  (P.ParseDuration d).isSome = true ∨ (P.ParseRFC3339 d).isSome = true

end WhereSpec

/-! ## Reading a select list back -/

/-- Go `strings.Split(s, ",")` on character lists. -/
def splitOnComma : List Char → List (List Char)
  | [] => [[]]
  | c :: cs =>
    if c = ',' then [] :: splitOnComma cs
    else
      match splitOnComma cs with
      | [] => [[c]]
      | h :: t => (c :: h) :: t

/-- The column names of a statement head `SELECT c1, c2, ...`, in order. -/
def selectColumns (select : String) : List String :=
  if "SELECT ".data.isPrefixOf select.data then
    (splitOnComma (select.data.drop "SELECT ".length)).map (fun cs => TrimSpace (String.mk cs))
  else []

/-- A row of the store laid out by column name: the cell a column of
`check_statuses` holds for one execution record. -/
def cellOf (time : String) (duration : Val) (status : Bool) (checkKey message error : String) :
    String → Val
  | "time" => .time time
  | "duration" => duration
  | "status" => .bool status
  | "check_key" => .str checkKey
  | "message" => .str message
  | "error" => .str error
  | _ => .null

/-- One execution record of the table `check_statuses`. -/
structure StatusRecord where
  time : String
  duration : Val
  status : Bool
  checkKey : String
  message : String
  error : String

/-- The cell a record holds in the column of a given name. -/
def StatusRecord.cell (r : StatusRecord) : String → Val :=
  cellOf r.time r.duration r.status r.checkKey r.message r.error

/-- The `pkg.Timeseries` a record stands for under a query: the key is
present exactly when the query is not scoped to one check, message and error
exactly when the query includes messages. -/
def StatusRecord.toTimeseries (C : Converters) (q : QueryParams) (r : StatusRecord) :
    Timeseries :=
  { Time := r.time, Duration := C.intV r.duration, Status := r.status
    Key := if q.Check = "" then r.checkKey else ""
    Message := if q.IncludeMessages = true then r.message else ""
    Error := if q.IncludeMessages = true then r.error else "" }

/-- The characters of the keyword `FROM`. -/
def fromKeyword : List Char := ['F', 'R', 'O', 'M']

/-- The text of a statement up to its first `FROM` keyword. -/
def beforeFrom : List Char → List Char
  | [] => []
  | c :: cs => if fromKeyword.isPrefixOf (c :: cs) then [] else c :: beforeFrom cs

/-- The column names a statement selects, in order: its select list, read
from the statement text itself. -/
def statementColumns (sql : String) : List String :=
  selectColumns (String.mk (beforeFrom sql.data))

/-- A store over `check_statuses` that answers the statement it is given:
`find` is the records its condition and limit select, and every row holds the
cells of one record in the order of the select list of that statement. -/
def layoutStore {Dur Time : Type} (find : String → NamedArgs Dur Time → List StatusRecord) :
    Querier Dur Time :=
  fun sql args => .ok ((find sql args).map (fun r => .ok ((statementColumns sql).map r.cell)))

/-- A store that rejects every statement and reports its text. -/
def echoStore {Dur Time : Type} : Querier Dur Time :=
  fun sql _ => .error sql

/-- Converters for integer cells, used in examples. -/
def demoConverters : Converters where
  intV := fun v => match v with
    | .int n => n
    | _ => 0
  float64V := fun v => match v with
    | .int n => n
    | _ => 0
  stringV := fun v => match v with
    | .str s => s
    | _ => ""
  mapStringString := fun _ => []

/-- A toy instance of the parsers: `"1h"` and `"30m"` are durations (in
minutes), one fixed RFC3339 timestamp is recognised. -/
def demoParsers : TimeParsers Nat String where
  ParseDuration := fun d => if d = "1h" then some 60 else if d = "30m" then some 30 else none
  ParseRFC3339 := fun d => if d = "2024-01-01T00:00:00Z" then some d else none

/-! ## Observations on the recorder -/

/-- The operations a list of registry calls makes on one collector, in order. -/
def opsOn (c : Collector) (es : List Emission) : List Op :=
  (es.filter (fun e => decide (e.collector = c))).map (fun e => e.op)

/-- The collectors that carry ad-hoc metrics. -/
def isAdhoc : Collector → Bool
  | .GenericCounter => true
  | .GenericGauge => true
  | .GenericHistogram => true
  | _ => false

/-- The ad-hoc metric updates among a list of registry calls, in order. -/
def adhocUpdates (es : List Emission) : List (Collector × Op) :=
  (es.filter (fun e => isAdhoc e.collector)).map (fun e => (e.collector, e.op))

/-- The registry update the specification selects for an ad-hoc metric by its
declared type: counter to increment, gauge to set, histogram to observe. -/
def selectedUpdate (m : Metric) : Collector × Op :=
  if m.Type_ = "counter" then (.GenericCounter, .Inc)
  else if m.Type_ = "gauge" then (.GenericGauge, .Set m.Value)
  else (.GenericHistogram, .Observe m.Value)

/-- The test that a metric's declared type is one of the three the data model
lists: counter, gauge or histogram. -/
def declaredType (m : Metric) : Bool :=
  m.Type_ == "counter" || m.Type_ == "gauge" || m.Type_ == "histogram"

/-- The sum of the series of `key` inside the window, 0 when there is none. -/
def seriesSum (m : SeriesMap) (key : String) (now : Nat) : Int :=
  match m key with
  | none => 0
  | some tp => tp.Reduce now Sum

/-- The series of `key`, when there is one, has the one-hour window `Record`
creates series with. -/
def HourWindow (m : SeriesMap) (key : String) : Prop :=
  ∀ tp, m key = some tp → tp.window = 3600

/-- The aggregator right after start-up: no series at all. -/
def emptyAggregator : Aggregator :=
  { failed := SeriesMap.New, passed := SeriesMap.New, latencies := SeriesMap.New }

/-- A toy instance of the canary methods: checks are named by strings, and
the name is type-independent key and description. -/
def demoAPI : CanaryAPI String where
  GetType := fun _ => "http"
  GetDescription := fun _ chk => chk
  GetKey := fun _ chk => chk

/-- A toy percentile reducer: the largest sample (0 on the empty window). -/
def demoPercentile (w : List Int) : Int := w.foldl max 0

/-- The spec's end-to-end example: three passes and two fails for key `k1`,
durations 10, 20, 30, 40, 50, recorded at seconds 100 to 104. -/
def demoCalls : List (Nat × Canary × CheckResult String) :=
  [ (100, {}, { Check := some "k1", Pass := true, Duration := 10, Metrics := [] }),
    (101, {}, { Check := some "k1", Pass := false, Duration := 20, Metrics := [] }),
    (102, {}, { Check := some "k1", Pass := true, Duration := 30, Metrics := [] }),
    (103, {}, { Check := some "k1", Pass := false, Duration := 40, Metrics := [] }),
    (104, {}, { Check := some "k1", Pass := true, Duration := 50, Metrics := [] }) ]

/-! ## Theorems: the time-filter parser -/

section ParserTheorems

variable {Dur Time : Type}

theorem parseDuration_cases (P : TimeParsers Dur Time) (d name : String) (hd : d ≠ "")
    (hp : Parses P d) :
    (∃ dur, parseDuration P d name =
        .ok ("(NOW() at TIME ZONE 'utc' - Interval '1 minute' * :" ++ name ++ ")", .minutes dur)) ∨
    (∃ t, parseDuration P d name = .ok (":" ++ name, .timestamp t)) := by
  unfold parseDuration
  rw [if_neg hd]
  cases h1 : P.ParseDuration d with
  | some dur => exact Or.inl ⟨dur, rfl⟩
  | none =>
    cases h2 : P.ParseRFC3339 d with
    | some t => exact Or.inr ⟨t, rfl⟩
    | none => simp [Parses, h1, h2] at hp

theorem parseDuration_trichotomy (P : TimeParsers Dur Time) (d name : String)
    (hp : d ≠ "" → Parses P d) :
    d = "" ∨
    (d ≠ "" ∧ ∃ dur, parseDuration P d name =
        .ok ("(NOW() at TIME ZONE 'utc' - Interval '1 minute' * :" ++ name ++ ")", .minutes dur)) ∨
    (d ≠ "" ∧ ∃ t, parseDuration P d name = .ok (":" ++ name, .timestamp t)) := by
  by_cases hd : d = ""
  · exact Or.inl hd
  · rcases parseDuration_cases P d name hd (hp hd) with h | h
    · exact Or.inr (Or.inl ⟨hd, h⟩)
    · exact Or.inr (Or.inr ⟨hd, h⟩)

theorem GetWhereClause_eq (P : TimeParsers Dur Time) (q : QueryParams)
    (hS : q.Start ≠ "" → Parses P q.Start) (hE : q.End ≠ "" → Parses P q.End) :
    GetWhereClause P q =
      .ok (" AND ".intercalate (expectedConditions P q), expectedArgs P q) := by
  obtain ⟨c, st, en, n, im, tr⟩ := q
  simp only at hS hE
  rcases parseDuration_trichotomy P st "start" hS with hs | ⟨hs, d1, h1⟩ | ⟨hs, t1, h1⟩ <;>
  rcases parseDuration_trichotomy P en "end" hE with he | ⟨he, d2, h2⟩ | ⟨he, t2, h2⟩ <;>
  by_cases hc : c = "" <;>
  (try subst hs) <;> (try subst he) <;> (try subst hc) <;>
  simp [GetWhereClause, expectedConditions, expectedArgs, parsedExpr, parsedArg, *] <;>
  first
  | rfl
  | exact ⟨by decide, rfl⟩

theorem expectedConditions_between (P : TimeParsers Dur Time) (q : QueryParams)
    (hS : q.Start ≠ "" → Parses P q.Start) (hE : q.End ≠ "" → Parses P q.End)
    (hs : q.Start ≠ "") (he : q.End ≠ "") :
    Contains (" AND ".intercalate (expectedConditions P q)) "time >" = false ∧
    Contains (" AND ".intercalate (expectedConditions P q)) "time <" = false := by
  obtain ⟨c, st, en, n, im, tr⟩ := q
  simp only at hS hE hs he
  rcases parseDuration_trichotomy P st "start" hS with hs' | ⟨-, d1, h1⟩ | ⟨-, t1, h1⟩ <;>
  rcases parseDuration_trichotomy P en "end" hE with he' | ⟨-, d2, h2⟩ | ⟨-, t2, h2⟩ <;>
  first
  | exact absurd hs' hs
  | exact absurd he' he
  | (by_cases hc : c = "" <;> (try subst hc) <;>
      simp [expectedConditions, parsedExpr, *] <;> decide)

theorem GetWhereClause_nonempty (P : TimeParsers Dur Time) (q : QueryParams)
    (hS : q.Start ≠ "" → Parses P q.Start) (hE : q.End ≠ "" → Parses P q.End)
    (hq : q.Check ≠ "" ∨ q.Start ≠ "" ∨ q.End ≠ "") :
    ∃ clause args, GetWhereClause P q = .ok (clause, args) ∧ clause ≠ "" := by
  refine ⟨_, _, GetWhereClause_eq P q hS hE, ?_⟩
  obtain ⟨c, st, en, n, im, tr⟩ := q
  simp only at hS hE hq
  rcases parseDuration_trichotomy P st "start" hS with hs | ⟨hs, d1, h1⟩ | ⟨hs, t1, h1⟩ <;>
  rcases parseDuration_trichotomy P en "end" hE with he | ⟨he, d2, h2⟩ | ⟨he, t2, h2⟩ <;>
  by_cases hc : c = "" <;>
  simp [expectedConditions, parsedExpr, *] at hq ⊢ <;>
  decide

theorem expectedArgs_keys (P : TimeParsers Dur Time) (q : QueryParams) (k : String) :
    k ∈ (expectedArgs P q).keys ↔
      (k = "check_key" ∧ q.Check ≠ "") ∨ (k = "start" ∧ q.Start ≠ "") ∨
        (k = "end" ∧ q.End ≠ "") := by
  by_cases hc : q.Check = "" <;> by_cases hs : q.Start = "" <;> by_cases he : q.End = "" <;>
    simp [expectedArgs, NamedArgs.keys, hc, hs, he]

theorem expectedArgs_get (P : TimeParsers Dur Time) (q : QueryParams) :
    (q.Check ≠ "" → (expectedArgs P q).get? "check_key" = some (.str q.Check)) ∧
    (q.Start ≠ "" → (expectedArgs P q).get? "start" = some (parsedArg P q.Start "start")) ∧
    (q.End ≠ "" → (expectedArgs P q).get? "end" = some (parsedArg P q.End "end")) := by
  by_cases hc : q.Check = "" <;> by_cases hs : q.Start = "" <;> by_cases he : q.End = "" <;>
    simp [expectedArgs, NamedArgs.get?, hc, hs, he, List.find?]

/-- C3: `parseDuration(d, name)` fails exactly when `d` is non-empty and parses
neither as a duration nor as an RFC3339 timestamp; the empty string gives the
empty expression, a nil value and no error; a duration gives the
`NOW() - Interval` expression over `:name` bound to the minutes; otherwise an
RFC3339 timestamp gives `:name` bound to the timestamp (the duration parser
is consulted first). -/
theorem parseDuration_spec (P : TimeParsers Dur Time) :
    (∀ d name, (∃ e, parseDuration P d name = .error e) ↔
      (d ≠ "" ∧ P.ParseDuration d = none ∧ P.ParseRFC3339 d = none)) ∧
    (∀ name, parseDuration P "" name = .ok ("", .null)) ∧
    (∀ d name dur, d ≠ "" → P.ParseDuration d = some dur →
      parseDuration P d name =
        .ok ("(NOW() at TIME ZONE 'utc' - Interval '1 minute' * :" ++ name ++ ")",
          .minutes dur)) ∧
    (∀ d name t, d ≠ "" → P.ParseDuration d = none → P.ParseRFC3339 d = some t →
      parseDuration P d name = .ok (":" ++ name, .timestamp t)) := by
  refine ⟨?_, ?_, ?_, ?_⟩
  · intro d name
    unfold parseDuration
    by_cases hd : d = ""
    · simp [hd]
    · rw [if_neg hd]
      cases h1 : P.ParseDuration d <;> cases h2 : P.ParseRFC3339 d <;> simp [hd]
  · intro name
    simp [parseDuration]
  · intro d name dur hd h1
    simp [parseDuration, hd, h1]
  · intro d name t hd h1 h2
    simp [parseDuration, hd, h1, h2]

/-- C1: when the non-empty bounds parse, `GetWhereClause` succeeds; its clause
is the `" AND "`-join of the check-key condition (when `Check` is set) and the
one time condition (`time >`, `time <` or `time BETWEEN`); with both bounds
set the clause contains neither `time >` nor `time <`; and the argument map
binds exactly `check_key`, `start` and `end` for the non-empty fields, to the
check key and the parsed values. -/
theorem GetWhereClause_spec (P : TimeParsers Dur Time) (q : QueryParams)
    (hS : q.Start ≠ "" → Parses P q.Start) (hE : q.End ≠ "" → Parses P q.End) :
    ∃ clause args, GetWhereClause P q = .ok (clause, args) ∧
      clause = " AND ".intercalate (expectedConditions P q) ∧
      (q.Start ≠ "" → q.End ≠ "" →
        Contains clause "time >" = false ∧ Contains clause "time <" = false) ∧
      (∀ k, k ∈ args.keys ↔
        (k = "check_key" ∧ q.Check ≠ "") ∨ (k = "start" ∧ q.Start ≠ "") ∨
          (k = "end" ∧ q.End ≠ "")) ∧
      (q.Check ≠ "" → args.get? "check_key" = some (.str q.Check)) ∧
      (q.Start ≠ "" → args.get? "start" = some (parsedArg P q.Start "start")) ∧
      (q.End ≠ "" → args.get? "end" = some (parsedArg P q.End "end")) :=
  ⟨_, _, GetWhereClause_eq P q hS hE, rfl, expectedConditions_between P q hS hE,
    expectedArgs_keys P q, expectedArgs_get P q⟩

end ParserTheorems

/-! ## Theorems at concrete inputs: the query layer -/

/-- The spec's round-trip example for C1: `Check = "c1"`, start `"1h"`, no end. -/
theorem GetWhereClause_spec_witness :
    ∃ clause args,
      GetWhereClause demoParsers { Check := "c1", Start := "1h" } = .ok (clause, args) ∧
      clause =
        "check_key = :check_key AND time > (NOW() at TIME ZONE 'utc' - Interval '1 minute' * :start)" ∧
      args.get? "start" = some (.minutes 60) := by
  obtain ⟨clause, args, h, hc, _, _, _, hs, _⟩ :=
    GetWhereClause_spec demoParsers { Check := "c1", Start := "1h" }
      (fun _ => Or.inl rfl) (fun h => absurd rfl h)
  exact ⟨clause, args, h, hc.trans (by rfl), (hs (by decide)).trans (by rfl)⟩

theorem beforeFrom_append (pre rest : List Char) (h : ∀ c ∈ pre, c ≠ 'F') :
    beforeFrom (pre ++ (fromKeyword ++ rest)) = pre := by
  induction pre with
  | nil => simp [beforeFrom, fromKeyword, List.isPrefixOf]
  | cons c cs ih =>
    have hc : ('F' == c) = false := by
      simpa using Ne.symm (h c (List.mem_cons_self _ _))
    have hp : fromKeyword.isPrefixOf (c :: (cs ++ (fromKeyword ++ rest))) = false := by
      simp only [fromKeyword, List.isPrefixOf, hc, Bool.false_and]
    show beforeFrom (c :: (cs ++ (fromKeyword ++ rest))) = c :: cs
    rw [beforeFrom, hp, ih (fun x hx => h x (List.mem_cons_of_mem _ hx))]
    rfl

theorem detailsSQL_data (q : QueryParams) (clause : String) :
    (detailsSQL q clause).data =
      (detailsSelect q ++ "\n\t").data ++
        (fromKeyword ++ (" check_statuses\n\tWHERE " ++ clause ++ detailsPart1).data) := by
  have h0 : detailsPart0 = "\n\t" ++ ("FROM" ++ " check_statuses\n\tWHERE ") := by decide
  simp only [detailsSQL, h0, String.data_append, List.append_assoc]
  rfl

theorem detailsSelect_head (q : QueryParams) :
    (q.Check = "" ∧ q.IncludeMessages = false ∧
      detailsSelect q = "SELECT time,duration,status , check_key") ∨
    (q.Check = "" ∧ q.IncludeMessages = true ∧
      detailsSelect q = "SELECT time,duration,status , check_key, message, error") ∨
    (q.Check ≠ "" ∧ q.IncludeMessages = false ∧
      detailsSelect q = "SELECT time,duration,status ") ∨
    (q.Check ≠ "" ∧ q.IncludeMessages = true ∧
      detailsSelect q = "SELECT time,duration,status , message, error") := by
  obtain ⟨c, st, en, n, im, tr⟩ := q
  by_cases hc : c = "" <;> cases im
  · subst hc
    exact Or.inl ⟨rfl, rfl, rfl⟩
  · subst hc
    exact Or.inr (Or.inl ⟨rfl, rfl, rfl⟩)
  · refine Or.inr (Or.inr (Or.inl ⟨hc, rfl, ?_⟩))
    simp only [detailsSelect, if_neg hc, Bool.false_eq_true, if_false]
  · refine Or.inr (Or.inr (Or.inr ⟨hc, rfl, ?_⟩))
    simp only [detailsSelect, if_neg hc, if_true]
    decide

theorem statementColumns_detailsSQL (q : QueryParams) (clause : String) :
    statementColumns (detailsSQL q clause) =
      ["time", "duration", "status"] ++ (if q.Check = "" then ["check_key"] else []) ++
        (if q.IncludeMessages = true then ["message", "error"] else []) := by
  unfold statementColumns
  rw [detailsSQL_data]
  rcases detailsSelect_head q with ⟨hc, hm, h⟩ | ⟨hc, hm, h⟩ | ⟨hc, hm, h⟩ | ⟨hc, hm, h⟩
  · rw [h, beforeFrom_append _ _ (by decide), if_pos hc, hm]
    decide
  · rw [h, beforeFrom_append _ _ (by decide), if_pos hc, hm]
    decide
  · rw [h, beforeFrom_append _ _ (by decide), if_neg hc, hm]
    decide
  · rw [h, beforeFrom_append _ _ (by decide), if_neg hc, hm]
    decide

theorem decodeDetailsRow_layout (C : Converters) (q : QueryParams) (clause : String)
    (r : StatusRecord) :
    decodeDetailsRow C q ((statementColumns (detailsSQL q clause)).map r.cell) =
      .ok (r.toTimeseries C q) := by
  rw [statementColumns_detailsSQL]
  obtain ⟨c, st, en, n, im, tr⟩ := q
  by_cases hc : c = "" <;> cases im <;>
    simp [decodeDetailsRow, idx, cellOf, StatusRecord.cell, StatusRecord.toTimeseries, keyIndex,
      messageIndex, errorIndex, hc, Val.asTimeRFC3339, Val.asBool, Val.asString, bind,
      Except.bind, pure, Except.pure]

theorem decodeRows_layout (C : Converters) (q : QueryParams) (clause : String)
    (rs : List StatusRecord) :
    decodeRows (decodeDetailsRow C q)
        (rs.map (fun r => .ok ((statementColumns (detailsSQL q clause)).map r.cell))) =
      .ok (rs.map (StatusRecord.toTimeseries C q)) := by
  induction rs with
  | nil => rfl
  | cons r rest ih =>
    simp only [List.map_cons, decodeRows, decodeDetailsRow_layout, ih]
    rfl

section DetailsTheorems

variable {Dur Time : Type}

/-- C9: for every shape of the query (`Check` empty or not, `IncludeMessages`
set or not) and every clause: the statement `ExecuteDetails` sends to the
store is `detailsSQL`; its select list, read back from the statement, is time,
duration, status, then `check_key` exactly when `Check` is empty, then message
and error exactly when `IncludeMessages` is set; the indices 0, 1, 2,
`keyIndex`, `messageIndex`, `errorIndex` are the positions of those columns and
are below the number of columns; and against a store that lays out every row
by the select list of the statement it receives, `ExecuteDetails` returns one
`Timeseries` per record found, each field taken from the column of its name,
the key decoded exactly when `Check` is empty, message and error exactly when
`IncludeMessages` is set. -/
theorem ExecuteDetails_indices (P : TimeParsers Dur Time) (C : Converters) (q : QueryParams) :
    (ExecuteDetails P C echoStore q =
      match GetWhereClause P q with
      | .ok (clause, _) => .error (.err (detailsSQL q clause))
      | .error e => .error (.err e)) ∧
    (∀ clause : String,
      statementColumns (detailsSQL q clause) =
        ["time", "duration", "status"] ++ (if q.Check = "" then ["check_key"] else []) ++
          (if q.IncludeMessages = true then ["message", "error"] else []) ∧
      (statementColumns (detailsSQL q clause))[0]? = some "time" ∧
      (statementColumns (detailsSQL q clause))[1]? = some "duration" ∧
      (statementColumns (detailsSQL q clause))[2]? = some "status" ∧
      (q.Check = "" →
        (statementColumns (detailsSQL q clause))[keyIndex q]? = some "check_key" ∧
        keyIndex q < (statementColumns (detailsSQL q clause)).length) ∧
      (q.IncludeMessages = true →
        (statementColumns (detailsSQL q clause))[messageIndex q]? = some "message" ∧
        (statementColumns (detailsSQL q clause))[errorIndex q]? = some "error" ∧
        messageIndex q < (statementColumns (detailsSQL q clause)).length ∧
        errorIndex q < (statementColumns (detailsSQL q clause)).length) ∧
      2 < (statementColumns (detailsSQL q clause)).length ∧
      ("check_key" ∈ statementColumns (detailsSQL q clause) ↔ q.Check = "") ∧
      ("message" ∈ statementColumns (detailsSQL q clause) ↔ q.IncludeMessages = true) ∧
      ("error" ∈ statementColumns (detailsSQL q clause) ↔ q.IncludeMessages = true)) ∧
    (∀ find : String → NamedArgs Dur Time → List StatusRecord,
      ExecuteDetails P C (layoutStore find) q =
        match GetWhereClause P q with
        | .ok (clause, args) =>
          .ok ((find (detailsSQL q clause) (args.set "limit" (.int q.StatusCount))).map
            (StatusRecord.toTimeseries C q))
        | .error e => .error (.err e)) := by
  refine ⟨?_, ?_, ?_⟩
  · unfold ExecuteDetails
    cases h : GetWhereClause P q with
    | error e => rfl
    | ok r => obtain ⟨clause, args⟩ := r; rfl
  · intro clause
    rw [statementColumns_detailsSQL]
    obtain ⟨c, st, en, n, im, tr⟩ := q
    by_cases hc : c = "" <;> cases im <;>
      simp [keyIndex, messageIndex, errorIndex, hc]
  · intro find
    unfold ExecuteDetails
    cases h : GetWhereClause P q with
    | error e => rfl
    | ok r =>
      obtain ⟨clause, args⟩ := r
      simp only [Except.mapError, layoutStore, bind, Except.bind]
      exact decodeRows_layout C q clause _

end DetailsTheorems

/-- C2, evaluated on the query with `Check`, `Start` and `End` all empty:
`GetWhereClause` succeeds with the empty clause, and the statements
`ExecuteDetails` and `ExecuteSummary` send to the store have nothing between
`WHERE` and `LIMIT` / `GROUP BY`, and nothing after `status = false  AND` and
`status = true AND`. -/
theorem emptyQuery_statements :
    GetWhereClause demoParsers {} = .ok ("", []) ∧
    ExecuteDetails demoParsers demoConverters echoStore {} =
      .error (.err
        "SELECT time,duration,status , check_key\n\tFROM check_statuses\n\tWHERE \n\tLIMIT :limit\n") ∧
    (∃ sql, ExecuteSummary demoParsers demoConverters echoStore {} = .error (.err sql) ∧
      Contains sql "FROM check_statuses WHERE   GROUP BY check_key" = true ∧
      Contains sql "WHERE status = false  AND \n    GROUP BY check_key" = true ∧
      Contains sql "WHERE  status = true AND \n    GROUP BY check_key" = true ∧
      Contains sql "WHERE  \n\t\t) check_statuses" = true) := by
  refine ⟨rfl, rfl, summarySQL {} "", rfl, ?_, ?_, ?_, ?_⟩ <;> decide

/-- C8, evaluated on the summary statement for `Check = "c1"`: the columns
`p99` and `p97` are `percentile_disc(0.99)` and `percentile_disc(0.97)` of
`check_statuses.duration`, the column `p95` is `percentile_disc(0.05)`, and
the fraction `0.95` does not occur in the statement; the decode assigns
columns 3, 4 and 5 to `Percentile99`, `Percentile97` and `Percentile95`. -/
theorem summary_percentiles :
    (∃ sql, ExecuteSummary demoParsers demoConverters echoStore { Check := "c1" } =
        .error (.err sql) ∧
      Contains sql
        "percentile_disc(0.99) within group (order by check_statuses.duration) as p99" = true ∧
      Contains sql
        "percentile_disc(0.97) within group (order by check_statuses.duration) as p97" = true ∧
      Contains sql
        "percentile_disc(0.05) within group (order by check_statuses.duration) as p95" = true ∧
      Contains sql "0.95" = false ∧
      Contains sql "stats.p99, stats.p97, stats.p95," = true) ∧
    (decodeSummaryRow demoConverters
        [.str "c1", .int 3, .int 2, .int 99, .int 97, .int 95, .null,
         .str "", .str "", .str "", .str "", .str "", .str "", .str "", .int 0, .null,
         .str "", .str "", .str "", .null, .str "", .str "", .str ""]).map
      (fun c => c.Latency) =
      .ok { Percentile99 := 99, Percentile97 := 97, Percentile95 := 95 } := by
  refine ⟨⟨summarySQL { Check := "c1" } "check_key = :check_key", rfl, ?_, ?_, ?_, ?_, ?_⟩, rfl⟩ <;>
    decide

/-! ## Theorems: the rolling aggregator -/

theorem Reduce_Append (tp : TimePolicy) (t now : Nat) (v : Int) :
    (tp.Append t v).Reduce now Sum =
      tp.Reduce now Sum + (if now - t < tp.window then v else 0) := by
  by_cases h : now - t < tp.window <;>
    simp [TimePolicy.Append, TimePolicy.Reduce, TimePolicy.live, Sum, List.filter_append, h]

theorem Reduce_New (n now : Nat) : (NewTimePolicy n).Reduce now Sum = 0 := by
  simp [NewTimePolicy, TimePolicy.Reduce, TimePolicy.live, Sum]

theorem Append_window (tp : TimePolicy) (t : Nat) (v : Int) :
    (tp.Append t v).window = tp.window := rfl

theorem New_window (n : Nat) : (NewTimePolicy n).window = n := rfl

theorem GetMetrics_uptime (pct : List Int → Int) (now : Nat) (s : Aggregator) (key : String) :
    (GetMetrics pct now s key).1 =
      { Passed := seriesSum s.passed key now, Failed := seriesSum s.failed key now } := by
  unfold GetMetrics seriesSum SeriesMap.Get
  cases s.failed key <;> cases s.passed key <;> rfl

section RecorderTheorems

variable {Chk : Type}

theorem Record_step (A : CanaryAPI Chk) (pct : List Int → Int) (t now : Nat) (s : Aggregator)
    (canary : Canary) (r : CheckResult Chk) (chk : Chk) (key : String)
    (hchk : r.Check = some chk) (hkey : A.GetKey canary chk = key)
    (hwin : now - t < 3600)
    (hp : HourWindow s.passed key) (hf : HourWindow s.failed key) :
    seriesSum (Record A pct t s canary (some r)).state.passed key now =
        seriesSum s.passed key now + (if r.Pass = true then 1 else 0) ∧
    seriesSum (Record A pct t s canary (some r)).state.failed key now =
        seriesSum s.failed key now + (if r.Pass = true then 0 else 1) ∧
    HourWindow (Record A pct t s canary (some r)).state.passed key ∧
    HourWindow (Record A pct t s canary (some r)).state.failed key := by
  obtain ⟨rc, rp, rd, rm⟩ := r
  simp only at hchk
  subst hchk hkey
  unfold HourWindow at hp hf
  cases hps : s.passed (A.GetKey canary chk) with
  | none =>
    cases hfs : s.failed (A.GetKey canary chk) with
    | none =>
      cases rp <;> by_cases hd : rd > 0 <;>
        simp [Record, seriesSum, SeriesMap.Get, SeriesMap.Set, HourWindow, hps, hfs, hd,
          Reduce_Append, Reduce_New, Append_window, New_window, hwin]
    | some f =>
      have hfw := hf f hfs
      cases rp <;> by_cases hd : rd > 0 <;>
        simp [Record, seriesSum, SeriesMap.Get, SeriesMap.Set, HourWindow, hps, hfs, hd,
          Reduce_Append, Reduce_New, Append_window, New_window, hwin, hfw]
  | some p =>
    have hpw := hp p hps
    cases hfs : s.failed (A.GetKey canary chk) with
    | none =>
      cases rp <;> by_cases hd : rd > 0 <;>
        simp [Record, seriesSum, SeriesMap.Get, SeriesMap.Set, HourWindow, hps, hfs, hd,
          Reduce_Append, Reduce_New, Append_window, New_window, hwin, hpw]
    | some f =>
      have hfw := hf f hfs
      cases rp <;> by_cases hd : rd > 0 <;>
        simp [Record, seriesSum, SeriesMap.Get, SeriesMap.Set, HourWindow, hps, hfs, hd,
          Reduce_Append, Reduce_New, Append_window, New_window, hwin, hpw, hfw]

theorem recordAll_sums (A : CanaryAPI Chk) (pct : List Int → Int) (key : String) (now : Nat)
    (calls : List (Nat × Canary × CheckResult Chk)) :
    ∀ s : Aggregator,
      HourWindow s.passed key → HourWindow s.failed key →
      (∀ c ∈ calls, ∃ chk, c.2.2.Check = some chk ∧ A.GetKey c.2.1 chk = key) →
      (∀ c ∈ calls, now - c.1 < 3600) →
      seriesSum (recordAll A pct s calls).passed key now =
          seriesSum s.passed key now + (calls.countP (fun c => c.2.2.Pass) : Nat) ∧
      seriesSum (recordAll A pct s calls).failed key now =
          seriesSum s.failed key now + (calls.countP (fun c => !c.2.2.Pass) : Nat) := by
  induction calls with
  | nil => intro s _ _ _ _; simp [recordAll]
  | cons c rest ih =>
    intro s hp hf hkey hwin
    obtain ⟨t, canary, r⟩ := c
    obtain ⟨chk, hchk, hk⟩ := hkey (t, canary, r) (List.mem_cons_self _ _)
    have hw : now - t < 3600 := hwin (t, canary, r) (List.mem_cons_self _ _)
    obtain ⟨h1, h2, h3, h4⟩ := Record_step A pct t now s canary r chk key hchk hk hw hp hf
    obtain ⟨i1, i2⟩ := ih (Record A pct t s canary (some r)).state h3 h4
      (fun c hc => hkey c (List.mem_cons_of_mem _ hc))
      (fun c hc => hwin c (List.mem_cons_of_mem _ hc))
    simp only [recordAll, List.countP_cons]
    rw [i1, i2, h1, h2]
    cases r.Pass <;> simp <;> omega

/-- C4: starting from a state with no series for `key`, after any sequence
of `Record` calls with non-nil results for `key`, all of them inside the
one-hour window at the time of reading, `GetMetrics(key)` returns an uptime
whose `Passed` is the number of passing results, whose `Failed` is the number
of failing results, and `Passed + Failed` is the number of calls. -/
theorem GetMetrics_counts (A : CanaryAPI Chk) (pct : List Int → Int) (key : String) (now : Nat)
    (s0 : Aggregator) (calls : List (Nat × Canary × CheckResult Chk))
    (h0 : s0.failed.Get key = none ∧ s0.passed.Get key = none ∧ s0.latencies.Get key = none)
    (hkey : ∀ c ∈ calls, ∃ chk, c.2.2.Check = some chk ∧ A.GetKey c.2.1 chk = key)
    (hwin : ∀ c ∈ calls, c.1 ≤ now ∧ now - c.1 < 3600) :
    (GetMetrics pct now (recordAll A pct s0 calls) key).1 =
      { Passed := (calls.countP (fun c => c.2.2.Pass) : Nat),
        Failed := (calls.countP (fun c => !c.2.2.Pass) : Nat) } ∧
    (GetMetrics pct now (recordAll A pct s0 calls) key).1.Passed +
      (GetMetrics pct now (recordAll A pct s0 calls) key).1.Failed = (calls.length : Nat) := by
  obtain ⟨hf0, hp0, _⟩ := h0
  simp only [SeriesMap.Get] at hf0 hp0
  have hp : HourWindow s0.passed key := by
    intro tp h; rw [hp0] at h; cases h
  have hf : HourWindow s0.failed key := by
    intro tp h; rw [hf0] at h; cases h
  obtain ⟨h1, h2⟩ := recordAll_sums A pct key now calls s0 hp hf hkey
    (fun c hc => (hwin c hc).2)
  have e1 : seriesSum s0.passed key now = 0 := by simp [seriesSum, hp0]
  have e2 : seriesSum s0.failed key now = 0 := by simp [seriesSum, hf0]
  rw [GetMetrics_uptime, h1, h2, e1, e2]
  refine ⟨by simp, ?_⟩
  have hlen : calls.countP (fun c => c.2.2.Pass) + calls.countP (fun c => !c.2.2.Pass) =
      calls.length := by
    have := List.length_eq_countP_add_countP (fun c : Nat × Canary × CheckResult Chk => c.2.2.Pass) calls
    simp only [Bool.not_eq_true] at this
    rw [this]
    congr 1
    apply List.countP_congr
    intro c _
    cases c.2.2.Pass <;> simp
  simp only [zero_add]
  exact_mod_cast hlen

theorem opsOn_append (c : Collector) (xs ys : List Emission) :
    opsOn c (xs ++ ys) = opsOn c xs ++ opsOn c ys := by
  simp [opsOn, List.filter_append]

theorem opsOn_nil (c : Collector) : opsOn c [] = [] := rfl

theorem opsOn_cons (c : Collector) (e : Emission) (es : List Emission) :
    opsOn c (e :: es) = (if e.collector = c then [e.op] else []) ++ opsOn c es := by
  by_cases h : e.collector = c <;> simp [opsOn, List.filter_cons, h]

theorem adhocUpdates_nil : adhocUpdates [] = [] := rfl

theorem adhocUpdates_cons (e : Emission) (es : List Emission) :
    adhocUpdates (e :: es) =
      (if isAdhoc e.collector = true then [(e.collector, e.op)] else []) ++ adhocUpdates es := by
  by_cases h : isAdhoc e.collector = true <;> simp [adhocUpdates, List.filter_cons, h]

theorem opsOn_emitMetric (c : Collector) (hc : isAdhoc c = false)
    (checkType endpoint namespace_ owner severity key : String) (ms : List Metric) :
    opsOn c (ms.flatMap (emitMetric checkType endpoint namespace_ owner severity key)) = [] := by
  induction ms with
  | nil => rfl
  | cons m rest ih =>
    rw [List.flatMap_cons, opsOn_append, ih]
    unfold emitMetric
    split_ifs <;> cases c <;> simp_all [opsOn, isAdhoc]

theorem adhocUpdates_append (xs ys : List Emission) :
    adhocUpdates (xs ++ ys) = adhocUpdates xs ++ adhocUpdates ys := by
  simp [adhocUpdates, List.filter_append]

theorem adhocUpdates_emitMetric
    (checkType endpoint namespace_ owner severity key : String) (ms : List Metric) :
    adhocUpdates (ms.flatMap (emitMetric checkType endpoint namespace_ owner severity key)) =
      (ms.filter declaredType).map selectedUpdate := by
  induction ms with
  | nil => rfl
  | cons m rest ih =>
    rw [List.flatMap_cons, adhocUpdates_append, ih, List.filter_cons]
    unfold emitMetric selectedUpdate declaredType CounterType GaugeType HistogramType
    split_ifs <;> simp_all [adhocUpdates, isAdhoc]

/-- C7: for a non-nil result with a non-nil check, `Record` makes exactly one
`Inc` on `OpsCount`; on pass one `Inc` on `OpsSuccessCount`, one `Add(0)` on
`OpsFailedCount` and one `Set(0)` on `Gauge`; on fail one `Inc` on
`OpsFailedCount`, one `Set(1)` on `Gauge` and nothing on `OpsSuccessCount`;
and it observes the duration in `RequestLatency` and appends it to the
latency series of the key exactly when the duration is positive. -/
theorem Record_core_emissions (A : CanaryAPI Chk) (pct : List Int → Int) (now : Nat)
    (s : Aggregator) (canary : Canary) (chk : Chk) (pass : Bool) (dur : Int)
    (ms : List Metric) :
    opsOn .OpsCount (Record A pct now s canary (some ⟨some chk, pass, dur, ms⟩)).emitted =
      [.Inc] ∧
    opsOn .OpsSuccessCount (Record A pct now s canary (some ⟨some chk, pass, dur, ms⟩)).emitted =
      (if pass = true then [.Inc] else []) ∧
    opsOn .OpsFailedCount (Record A pct now s canary (some ⟨some chk, pass, dur, ms⟩)).emitted =
      (if pass = true then [.Add 0] else [.Inc]) ∧
    opsOn .Gauge (Record A pct now s canary (some ⟨some chk, pass, dur, ms⟩)).emitted =
      (if pass = true then [.Set 0] else [.Set 1]) ∧
    opsOn .RequestLatency (Record A pct now s canary (some ⟨some chk, pass, dur, ms⟩)).emitted =
      (if dur > 0 then [.Observe (dur : ℚ)] else []) ∧
    (Record A pct now s canary (some ⟨some chk, pass, dur, ms⟩)).state.latencies.Get
        (A.GetKey canary chk) =
      some (if dur > 0 then
          ((s.latencies.Get (A.GetKey canary chk)).getD (NewTimePolicy 3600)).Append now dur
        else (s.latencies.Get (A.GetKey canary chk)).getD (NewTimePolicy 3600)) := by
  cases pass <;> by_cases hd : dur > 0 <;>
    cases hl : s.latencies (A.GetKey canary chk) <;>
    simp [Record, hd, hl, opsOn_append, opsOn_cons, opsOn_nil, opsOn_emitMetric, isAdhoc,
      SeriesMap.Get, SeriesMap.Set]

/-- C6 as amended: for a passing non-nil result with a non-nil check,
`Record` makes, in the order of the metrics, exactly one registry update for
every ad-hoc metric whose declared type is counter, gauge or histogram, the
one its type selects (counter: `Inc` on `GenericCounter`; gauge: `Set(value)`
on `GenericGauge`; histogram: `Observe(value)` on `GenericHistogram`), and
none for a metric of another declared type; for a failing result it makes no
ad-hoc metric update. -/
theorem Record_adhoc_metrics (A : CanaryAPI Chk) (pct : List Int → Int) (now : Nat)
    (s : Aggregator) (canary : Canary) (chk : Chk) (dur : Int) (ms : List Metric) :
    adhocUpdates (Record A pct now s canary (some ⟨some chk, true, dur, ms⟩)).emitted =
      (ms.filter declaredType).map selectedUpdate ∧
    adhocUpdates (Record A pct now s canary (some ⟨some chk, false, dur, ms⟩)).emitted = [] := by
  constructor
  · by_cases hd : dur > 0 <;>
      simp [Record, hd, adhocUpdates_append, adhocUpdates_cons, adhocUpdates_nil, isAdhoc,
        adhocUpdates_emitMetric]
  · by_cases hd : dur > 0 <;>
      simp [Record, hd, adhocUpdates_cons, adhocUpdates_nil, isAdhoc]

end RecorderTheorems

/-! ## Theorems: removal, and the error response -/

/-- C5: after `RemoveCheckByKey(key)`, `GetMetrics(key)` returns the zero
uptime and the zero latency, which is what `GetMetrics` returns for a key
without series; and the series of every other key are unchanged. -/
theorem RemoveCheckByKey_spec (pct : List Int → Int) (now : Nat) (s : Aggregator)
    (key : String) :
    GetMetrics pct now (RemoveCheckByKey s key) key = ({}, {}) ∧
    (∀ s0 : Aggregator,
      s0.failed.Get key = none → s0.passed.Get key = none → s0.latencies.Get key = none →
      GetMetrics pct now s0 key = GetMetrics pct now (RemoveCheckByKey s key) key) ∧
    (∀ k, k ≠ key →
      (RemoveCheckByKey s key).failed.Get k = s.failed.Get k ∧
      (RemoveCheckByKey s key).passed.Get k = s.passed.Get k ∧
      (RemoveCheckByKey s key).latencies.Get k = s.latencies.Get k) := by
  have h1 : GetMetrics pct now (RemoveCheckByKey s key) key = ({}, {}) := by
    simp [GetMetrics, RemoveCheckByKey, SeriesMap.Get, SeriesMap.Remove]
  refine ⟨h1, ?_, ?_⟩
  · intro s0 hf hp hl
    rw [h1]
    simp only [SeriesMap.Get] at hf hp hl
    simp [GetMetrics, SeriesMap.Get, hf, hp, hl]
  · intro k hk
    simp [RemoveCheckByKey, SeriesMap.Get, SeriesMap.Remove, hk]

/-- C10, evaluated: for every error text and status code `errorResonse`
first writes the body and then calls `WriteHeader(code)`, so a writer that
follows the `http.ResponseWriter` contract has already sent status 200 with
the body and drops `code`. -/
theorem errorResonse_calls (marshal : String → String) (errText : String) (code : Int) :
    errorResonse marshal errText code = [.Write (marshal errText), .WriteHeader code] ∧
    (respond (errorResonse marshal errText code)).status = some 200 ∧
    (respond (errorResonse marshal errText code)).body = marshal errText := by
  refine ⟨rfl, rfl, ?_⟩
  simp [respond, errorResonse, Response.apply]



/-! ## Theorems at concrete inputs: the recorder -/

/-- The spec's end-to-end example for C4: three passes and two fails for
`k1` give `Uptime{Passed: 3, Failed: 2}`. -/
theorem GetMetrics_counts_witness :
    (GetMetrics demoPercentile 104
        (recordAll demoAPI demoPercentile emptyAggregator demoCalls) "k1").1 =
      { Passed := 3, Failed := 2 } := by
  have h := (GetMetrics_counts demoAPI demoPercentile "k1" 104 emptyAggregator demoCalls
    ⟨rfl, rfl, rfl⟩
    (by
      intro c hc
      simp only [demoCalls, List.mem_cons, List.mem_singleton, List.not_mem_nil, or_false] at hc
      rcases hc with rfl | rfl | rfl | rfl | rfl <;> exact ⟨"k1", rfl, rfl⟩)
    (by
      intro c hc
      simp only [demoCalls, List.mem_cons, List.mem_singleton, List.not_mem_nil, or_false] at hc
      rcases hc with rfl | rfl | rfl | rfl | rfl <;> decide)).1
  exact h.trans (by decide)

/-- C6 as stated fails on a failing result: the result carries one counter
metric, whose selected update is an `Inc` on `GenericCounter`, and `Record`
makes no ad-hoc update at all; its registry calls are exactly the four core
ones. -/
theorem Record_fail_drops_metrics :
    (Record demoAPI demoPercentile 100 emptyAggregator {}
        (some ⟨some "k1", false, 10, [⟨"rows", "counter", 1⟩]⟩)).emitted =
      [ ⟨.OpsCount, ["http", "k1", "", "", "", "", "k1"], .Inc⟩,
        ⟨.RequestLatency, ["http", "k1", "", "", "", "", "k1"], .Observe 10⟩,
        ⟨.Gauge, ["http", "k1", "", "", "", "", "k1"], .Set 1⟩,
        ⟨.OpsFailedCount, ["http", "k1", "", "", "", "", "k1"], .Inc⟩ ] ∧
    adhocUpdates (Record demoAPI demoPercentile 100 emptyAggregator {}
        (some ⟨some "k1", false, 10, [⟨"rows", "counter", 1⟩]⟩)).emitted = [] ∧
    [(⟨"rows", "counter", 1⟩ : Metric)].map selectedUpdate = [(.GenericCounter, .Inc)] := by
  decide

/-- The amended C6 on a passing result with a metric of an undeclared type
followed by one of each declared type: the undeclared one causes no update,
the others one each, in order. -/
theorem Record_adhoc_metrics_witness :
    adhocUpdates (Record demoAPI demoPercentile 100 emptyAggregator {}
        (some ⟨some "k1", true, 10,
          [⟨"x", "summary", 4⟩, ⟨"rows", "counter", 1⟩, ⟨"size", "gauge", 7⟩,
           ⟨"lag", "histogram", 9⟩]⟩)).emitted =
      [(.GenericCounter, .Inc), (.GenericGauge, .Set 7), (.GenericHistogram, .Observe 9)] :=
  (Record_adhoc_metrics demoAPI demoPercentile 100 emptyAggregator {} "k1" 10
    [⟨"x", "summary", 4⟩, ⟨"rows", "counter", 1⟩, ⟨"size", "gauge", 7⟩,
     ⟨"lag", "histogram", 9⟩]).1.trans (by decide)

end CanaryChecker
